import Mathlib

/-
Verification development for the repo-file-sync tool
(source files: src/github.py, src/sync.py, src/config.py).

The development shallowly embeds the content substitution engine,
the dual path fetch strategy, the save step and the sync orchestrator.
Byte strings are modelled as List Nat (each element a byte value),
text as List Char, the filesystem as an association list from path
strings to byte strings, and the network as explicit response oracles.
-/

set_option maxRecDepth 10000

/-! ## String primitives modelling Python str operations -/

/-- Boolean test that the first list is a prefix of the second,
modelling the prefix comparison used by the Python str.replace scan. -/
def strStartsWith : List Char → List Char → Bool
  | [], _ => true
  | _ :: _, [] => false
  | p :: ps, c :: cs => p = c && strStartsWith ps cs

/-- Boolean substring containment, modelling the Python expression
of the form name in text used in the literal branch of
GitHubClient substitute env vars. -/
def containsSub (pat : List Char) : List Char → Bool
  | [] => pat.isEmpty
  | c :: rest => strStartsWith pat (c :: rest) || containsSub pat rest

/-- Replacement scan for a nonempty pattern: models Python
str.replace, replacing every non overlapping occurrence of pat,
scanning left to right.  The fuel argument only bounds the recursion
(every step consumes at least one character, so fuel equal to the
text length is always enough and the zero fuel case is reached only
on the empty text, which it returns unchanged). -/
def pyReplaceGo (pat rep : List Char) : Nat → List Char → List Char
  | 0, s => s
  | _ + 1, [] => []
  | fuel + 1, c :: rest =>
    if pat ≠ [] ∧ strStartsWith pat (c :: rest) = true then
      rep ++ pyReplaceGo pat rep fuel ((c :: rest).drop pat.length)
    else
      c :: pyReplaceGo pat rep fuel rest

/-- Replacement with the empty pattern: Python str.replace with an
empty pattern inserts the replacement before every character and at
the end. -/
def pyReplaceEmpty (rep : List Char) : List Char → List Char
  | [] => rep
  | c :: rest => rep ++ c :: pyReplaceEmpty rep rest

/-- Model of Python str.replace(pat, rep) on character lists. -/
def pyReplace (s pat rep : List Char) : List Char :=
  if pat = [] then pyReplaceEmpty rep s else pyReplaceGo pat rep s.length s

/-- Last path component of a slash separated path, modelling
the name attribute of pathlib.Path as used for flattened output. -/
def baseName (s : List Char) : List Char :=
  (((s.reverse).takeWhile (fun c => c ≠ '/')).reverse)

/-! ## UTF-8 codec modelling Python bytes.decode and str.encode -/

/-- Encoding of a single code point to UTF-8 bytes. -/
def utf8EncodeChar (c : Char) : List Nat :=
  let n := c.toNat
  if n < 0x80 then [n]
  else if n < 0x800 then [0xC0 + n / 64, 0x80 + n % 64]
  else if n < 0x10000 then
    [0xE0 + n / 4096, 0x80 + (n / 64) % 64, 0x80 + n % 64]
  else
    [0xF0 + n / 262144, 0x80 + (n / 4096) % 64, 0x80 + (n / 64) % 64, 0x80 + n % 64]

/-- Encoding of text to UTF-8 bytes, modelling str.encode("utf-8"). -/
def utf8Encode : List Char → List Nat
  | [] => []
  | c :: rest => utf8EncodeChar c ++ utf8Encode rest

/-- Test for a UTF-8 continuation byte. -/
def isCont (b : Nat) : Bool := 0x80 ≤ b && b ≤ 0xBF

/-- Strict decoding of one UTF-8 sequence: given the first byte and the
remaining bytes, yields the code point and the count of extra bytes
consumed, or none on any malformed sequence (overlong forms, surrogate
code points and out of range values are rejected, as CPython does). -/
def utf8DecodeOne (b : Nat) (rest : List Nat) : Option (Nat × Nat) :=
  if b ≤ 0x7F then some (b, 0)
  else if 0xC2 ≤ b && b ≤ 0xDF then
    match rest with
    | b1 :: _ =>
      if isCont b1 then some ((b - 0xC0) * 64 + (b1 - 0x80), 1) else none
    | [] => none
  else if 0xE0 ≤ b && b ≤ 0xEF then
    match rest with
    | b1 :: b2 :: _ =>
      let lowOk : Bool :=
        if b = 0xE0 then 0xA0 ≤ b1 && b1 ≤ 0xBF
        else if b = 0xED then 0x80 ≤ b1 && b1 ≤ 0x9F
        else isCont b1
      if lowOk && isCont b2 then
        some ((b - 0xE0) * 4096 + (b1 - 0x80) * 64 + (b2 - 0x80), 2)
      else none
    | _ => none
  else if 0xF0 ≤ b && b ≤ 0xF4 then
    match rest with
    | b1 :: b2 :: b3 :: _ =>
      let lowOk : Bool :=
        if b = 0xF0 then 0x90 ≤ b1 && b1 ≤ 0xBF
        else if b = 0xF4 then 0x80 ≤ b1 && b1 ≤ 0x8F
        else isCont b1
      if lowOk && isCont b2 && isCont b3 then
        some ((b - 0xF0) * 262144 + (b1 - 0x80) * 4096 + (b2 - 0x80) * 64 + (b3 - 0x80), 3)
      else none
    | _ => none
  else none

/-- Fueled strict UTF-8 decoding scan; every step consumes at least
one byte, so fuel equal to the byte count always suffices and the
zero fuel case is reached only on the exhausted input. -/
def utf8DecodeGo : Nat → List Nat → Option (List Char)
  | 0, [] => some []
  | 0, _ :: _ => none
  | _ + 1, [] => some []
  | fuel + 1, b :: rest =>
    match utf8DecodeOne b rest with
    | none => none
    | some (cp, k) =>
      match utf8DecodeGo fuel (rest.drop k) with
      | none => none
      | some cs => some (Char.ofNat cp :: cs)

/-- Strict UTF-8 decoding of a byte string, modelling
bytes.decode("utf-8"): returns none exactly when CPython would raise
UnicodeDecodeError. -/
def utf8Decode (bs : List Nat) : Option (List Char) :=
  utf8DecodeGo bs.length bs

/-! ## Base64 decoding modelling base64.b64decode -/

/-- Value of a base64 alphabet character, none for other characters. -/
def b64Val (c : Char) : Option Nat :=
  if 'A' ≤ c && c ≤ 'Z' then some (c.toNat - 'A'.toNat)
  else if 'a' ≤ c && c ≤ 'z' then some (c.toNat - 'a'.toNat + 26)
  else if '0' ≤ c && c ≤ '9' then some (c.toNat - '0'.toNat + 52)
  else if c = '+' then some 62
  else if c = '/' then some 63
  else none

/-- Decoding of base64 quads; the final quad may carry padding.
Returns none on incomplete or malformed padding, as
base64.b64decode raises binascii.Error there. -/
def b64Quads : List Char → Option (List Nat)
  | [] => some []
  | a :: b :: c :: d :: rest =>
    match b64Val a, b64Val b with
    | some va, some vb =>
      if c = '=' && d = '=' && rest.isEmpty then
        some [va * 4 + vb / 16]
      else
        match b64Val c with
        | some vc =>
          if d = '=' && rest.isEmpty then
            some [va * 4 + vb / 16, (vb % 16) * 16 + vc / 4]
          else
            match b64Val d with
            | some vd =>
              match b64Quads rest with
              | some bs =>
                some ([va * 4 + vb / 16, (vb % 16) * 16 + vc / 4, (vc % 4) * 64 + vd] ++ bs)
              | none => none
            | none => none
        | none => none
    | _, _ => none
  | _ => none

/-- Model of base64.b64decode on a string: characters outside the
alphabet and padding are discarded first (the default non validating
mode of CPython), then complete quads are decoded. -/
def b64decode (s : List Char) : Option (List Nat) :=
  b64Quads (s.filter (fun c => (b64Val c).isSome || c = '='))

/-! ## Regex engine modelling the Python re module

The engine models the subset of re used through
GitHubClient substitute env vars: literal characters, escaped
punctuation, the d, w and s character class escapes, character
classes with ranges and negation, groups, alternation, the dot, and
the star, plus and question postfix operators, with the i, m and s
flags of the source (only i and s influence the modelled constructs).
Patterns outside this subset fail to compile in the model; the
patterns exercised by the claims are inside the subset. -/

/-- Item of a character class. -/
inductive ClsItem where
  | single (c : Char)
  | range (a b : Char)
  | dCls
  | wCls
  | sCls
deriving DecidableEq, Repr

/-- Character level matcher. -/
inductive RTok where
  | lit (c : Char)
  | any
  | dCls
  | wCls
  | sCls
  | cls (neg : Bool) (items : List ClsItem)
deriving DecidableEq, Repr

/-- Regular expression abstract tree. -/
inductive Re where
  | eps
  | tok (t : RTok)
  | seq (a b : Re)
  | alt (a b : Re)
  | star (a : Re)
  | group (idx : Nat) (a : Re)
deriving DecidableEq, Repr

/-- Regex flags parsed from the flags string of a rule. -/
structure RFlags where
  icase : Bool
  multi : Bool
  dotall : Bool
deriving DecidableEq, Repr

/-- Parsing of the flags string: the source lowercases the string and
tests membership of the letters i, m and s. -/
def parseFlagsStr (s : List Char) : RFlags :=
  ⟨(s.map Char.toLower).contains 'i',
   (s.map Char.toLower).contains 'm',
   (s.map Char.toLower).contains 's'⟩

/-- Test for an ASCII octal digit. -/
def isOct (c : Char) : Bool := '0' ≤ c && c ≤ '7'

/-- Numeric value of an ASCII digit. -/
def digVal (c : Char) : Nat := c.toNat - '0'.toNat

/-- Test for an ASCII letter. -/
def isAsciiLetter (c : Char) : Bool :=
  ('a' ≤ c && c ≤ 'z') || ('A' ≤ c && c ≤ 'Z')

/-- Items of a character class body, up to the closing bracket.
Returns none when the class is unterminated, which is how a pattern
such as an unclosed bracket fails to compile.  Fuel only bounds the
recursion; every step consumes at least one character. -/
def parseClsItems : Nat → List Char → Option (List ClsItem × List Char)
  | 0, _ => none
  | _ + 1, [] => none
  | _ + 1, ']' :: rest => some ([], rest)
  | fuel + 1, '\\' :: e :: rest =>
    let item : Option ClsItem :=
      if e = 'd' then some .dCls
      else if e = 'w' then some .wCls
      else if e = 's' then some .sCls
      else if e = 'n' then some (.single '\n')
      else if e = 't' then some (.single '\t')
      else if e = 'r' then some (.single '\r')
      else if isAsciiLetter e then none
      else some (.single e)
    match item with
    | none => none
    | some it =>
      match parseClsItems fuel rest with
      | none => none
      | some (its, rest1) => some (it :: its, rest1)
  | fuel + 1, a :: '-' :: b :: rest =>
    if b = ']' then
      match parseClsItems fuel (b :: rest) with
      | none => none
      | some (its, rest1) => some (.single a :: .single '-' :: its, rest1)
    else
      match parseClsItems fuel rest with
      | none => none
      | some (its, rest1) => some (.range a b :: its, rest1)
  | fuel + 1, c :: rest =>
    match parseClsItems fuel rest with
    | none => none
    | some (its, rest1) => some (.single c :: its, rest1)

/-- Body of a character class after the opening bracket and optional
negation: a closing bracket in first position is a literal item. -/
def parseClsBody (cs : List Char) : Option (List ClsItem × List Char) :=
  match cs with
  | ']' :: rest =>
    match parseClsItems (rest.length + 1) rest with
    | none => none
    | some (its, rest1) => some (.single ']' :: its, rest1)
  | _ => parseClsItems (cs.length + 1) cs

/-- Test that no further repeat operator follows, modelling the
multiple repeat compile error of the re module. -/
def noRepeatNext (cs : List Char) : Bool :=
  match cs with
  | '*' :: _ => false
  | '+' :: _ => false
  | '?' :: _ => false
  | _ => true

/-- Mode of the recursive descent pattern parser: alternation,
concatenation, piece (atom with optional repeat) and atom levels. -/
inductive PMode where
  | palt
  | pseq
  | ppiece
  | patom
deriving DecidableEq, Repr

/-- Recursive descent parser for the pattern grammar, indexed by the
grammar level.  Fuel bounds the descent depth; the entry point in
compileRegex supplies enough fuel for any pattern.  Anchors,
extension groups, backreferences in patterns and counted repeats are
outside the modelled subset and fail to compile. -/
def parseReM : Nat → PMode → Nat → List Char → Option (Re × Nat × List Char)
  | 0, _, _, _ => none
  | fuel + 1, .palt, g, cs =>
    match parseReM fuel .pseq g cs with
    | none => none
    | some (r, g1, rest) =>
      match rest with
      | '|' :: rest1 =>
        match parseReM fuel .palt g1 rest1 with
        | none => none
        | some (r2, g2, rest2) => some (.alt r r2, g2, rest2)
      | _ => some (r, g1, rest)
  | fuel + 1, .pseq, g, cs =>
    match cs with
    | [] => some (.eps, g, [])
    | ')' :: _ => some (.eps, g, cs)
    | '|' :: _ => some (.eps, g, cs)
    | _ =>
      match parseReM fuel .ppiece g cs with
      | none => none
      | some (r, g1, rest) =>
        match parseReM fuel .pseq g1 rest with
        | none => none
        | some (r2, g2, rest2) => some (.seq r r2, g2, rest2)
  | fuel + 1, .ppiece, g, cs =>
    match parseReM fuel .patom g cs with
    | none => none
    | some (r, g1, rest) =>
      match rest with
      | '*' :: rest1 =>
        if noRepeatNext rest1 then some (.star r, g1, rest1) else none
      | '+' :: rest1 =>
        if noRepeatNext rest1 then some (.seq r (.star r), g1, rest1) else none
      | '?' :: rest1 =>
        if noRepeatNext rest1 then some (.alt r .eps, g1, rest1) else none
      | _ => some (r, g1, rest)
  | fuel + 1, .patom, g, cs =>
    match cs with
    | [] => none
    | '(' :: '?' :: _ => none
    | '(' :: rest =>
      match parseReM fuel .palt (g + 1) rest with
      | none => none
      | some (r, g1, rest1) =>
        match rest1 with
        | ')' :: rest2 => some (.group g r, g1, rest2)
        | _ => none
    | '[' :: '^' :: rest =>
      match parseClsBody rest with
      | none => none
      | some (its, rest1) => some (.tok (.cls true its), g, rest1)
    | '[' :: rest =>
      match parseClsBody rest with
      | none => none
      | some (its, rest1) => some (.tok (.cls false its), g, rest1)
    | '.' :: rest => some (.tok .any, g, rest)
    | '\\' :: e :: rest =>
      if e = 'd' then some (.tok .dCls, g, rest)
      else if e = 'w' then some (.tok .wCls, g, rest)
      else if e = 's' then some (.tok .sCls, g, rest)
      else if e = 'n' then some (.tok (.lit '\n'), g, rest)
      else if e = 't' then some (.tok (.lit '\t'), g, rest)
      else if e = 'r' then some (.tok (.lit '\r'), g, rest)
      else if isAsciiLetter e || e.isDigit then none
      else some (.tok (.lit e), g, rest)
    | '\\' :: [] => none
    | '*' :: _ => none
    | '+' :: _ => none
    | '?' :: _ => none
    | '^' :: _ => none
    | '$' :: _ => none
    | c :: rest => some (.tok (.lit c), g, rest)


/-- Compilation of a pattern string, modelling re.compile: yields the
tree and the number of groups, or none when compilation fails. -/
def compileRegex (pat : List Char) : Option (Re × Nat) :=
  match parseReM (4 * (pat.length + 2)) .palt 1 pat with
  | some (r, g, []) => some (r, g - 1)
  | _ => none

/-- Case toggling helper used for case insensitive range matching. -/
def swapCase (c : Char) : Char :=
  if c.isUpper then c.toLower else if c.isLower then c.toUpper else c

/-- Matching of one class item against a character. -/
def clsItemMatch (ic : Bool) (it : ClsItem) (c : Char) : Bool :=
  match it with
  | .single a => if ic then a.toLower = c.toLower else a = c
  | .range a b => (a ≤ c && c ≤ b) || (ic && a ≤ swapCase c && swapCase c ≤ b)
  | .dCls => c.isDigit
  | .wCls => c.isAlphanum || c = '_'
  | .sCls => c = ' ' || c = '\t' || c = '\n' || c = '\r' || c = '\x0b' || c = '\x0c'

/-- Matching of one token against a character under the flags. -/
def tokMatch (f : RFlags) (t : RTok) (c : Char) : Bool :=
  match t with
  | .lit a => if f.icase then a.toLower = c.toLower else a = c
  | .any => f.dotall || c ≠ '\n'
  | .dCls => c.isDigit
  | .wCls => c.isAlphanum || c = '_'
  | .sCls => c = ' ' || c = '\t' || c = '\n' || c = '\r' || c = '\x0b' || c = '\x0c'
  | .cls neg items => (items.any fun it => clsItemMatch f.icase it c) != neg

/-- Group capture store: entry i holds group i+1. -/
abbrev Caps := List (Option (List Char))

/-- Backtracking matcher: returns the possible outcomes as pairs of
remaining suffix and capture store, in the priority order of the re
module (greedy repeats, first alternative first).  Fuel bounds the
recursion depth; the top level entry supplies enough fuel for every
outcome to be found. -/
def reMatch (f : RFlags) : Nat → Re → List Char → Caps → List (List Char × Caps)
  | 0, _, _, _ => []
  | fuel + 1, re, s, caps =>
    match re with
    | .eps => [(s, caps)]
    | .tok t =>
      match s with
      | [] => []
      | c :: rest => if tokMatch f t c then [(rest, caps)] else []
    | .seq a b =>
      (reMatch f fuel a s caps).flatMap fun p => reMatch f fuel b p.1 p.2
    | .alt a b => reMatch f fuel a s caps ++ reMatch f fuel b s caps
    | .star a =>
      ((reMatch f fuel a s caps).flatMap fun p =>
        if p.1.length < s.length then reMatch f fuel (.star a) p.1 p.2 else [])
      ++ [(s, caps)]
    | .group idx a =>
      (reMatch f fuel a s caps).map fun p =>
        (p.1, p.2.set (idx - 1) (some (s.take (s.length - p.1.length))))

/-- Size of a regex tree, used to bound the matcher fuel. -/
def reSize : Re → Nat
  | .eps => 1
  | .tok _ => 1
  | .seq a b => reSize a + reSize b + 1
  | .alt a b => reSize a + reSize b + 1
  | .star a => reSize a + 1
  | .group _ a => reSize a + 1

/-- Attempted match at the current position: the first outcome in
priority order, reported as consumed length and captures. -/
def tryMatchAt (f : RFlags) (re : Re) (ng : Nat) (s : List Char) : Option (Nat × Caps) :=
  match reMatch f ((reSize re + 2) * (s.length + 2)) re s (List.replicate ng none) with
  | [] => none
  | (suffix, caps) :: _ => some (s.length - suffix.length, caps)

/-! ## Replacement templates modelling sre parse template handling -/

/-- Parsed replacement template item: a literal chunk or a group
reference. -/
inductive TItem where
  | lit (cs : List Char)
  | ref (n : Nat)
deriving DecidableEq, Repr

/-- Control character escapes recognised inside replacement strings
(the ESCAPES table of sre parsing). -/
def escCtl (c : Char) : Option Char :=
  if c = 'a' then some '\x07'
  else if c = 'b' then some '\x08'
  else if c = 'f' then some '\x0c'
  else if c = 'n' then some '\n'
  else if c = 'r' then some '\r'
  else if c = 't' then some '\t'
  else if c = 'v' then some '\x0b'
  else if c = '\\' then some '\\'
  else none

/-- Parsing of a replacement template against a pattern with ng
groups, modelling the CPython template parser: backslash followed by
digits yields a group reference or an octal character escape, the
ESCAPES table yields control characters, unknown letter escapes and a
trailing backslash are errors, and any other escaped character keeps
both characters. -/
def parseTemplateGo (ng : Nat) : Nat → List Char → Option (List TItem)
  | 0, _ => none
  | _ + 1, [] => some []
  | fuel + 1, '\\' :: rest =>
    match rest with
    | [] => none
    | c :: rest1 =>
      if c = '0' then
        let o := (rest1.takeWhile isOct).take 2
        let v := o.foldl (fun a d => a * 8 + digVal d) 0
        match parseTemplateGo ng fuel (rest1.drop o.length) with
        | none => none
        | some items => some (.lit [Char.ofNat v] :: items)
      else if c.isDigit then
        match rest1 with
        | d2 :: rest2 =>
          if d2.isDigit then
            match rest2 with
            | d3 :: rest3 =>
              if isOct c && isOct d2 && isOct d3 then
                let v := digVal c * 64 + digVal d2 * 8 + digVal d3
                if v ≤ 255 then
                  match parseTemplateGo ng fuel rest3 with
                  | none => none
                  | some items => some (.lit [Char.ofNat v] :: items)
                else none
              else
                let n := digVal c * 10 + digVal d2
                if n ≤ ng then
                  match parseTemplateGo ng fuel (d3 :: rest3) with
                  | none => none
                  | some items => some (.ref n :: items)
                else none
            | [] =>
              let n := digVal c * 10 + digVal d2
              if n ≤ ng then some [.ref n] else none
          else
            if digVal c ≤ ng then
              match parseTemplateGo ng fuel (d2 :: rest2) with
              | none => none
              | some items => some (.ref (digVal c) :: items)
            else none
        | [] => if digVal c ≤ ng then some [.ref (digVal c)] else none
      else if c = 'g' then none
      else
        match escCtl c with
        | some ch =>
          match parseTemplateGo ng fuel rest1 with
          | none => none
          | some items => some (.lit [ch] :: items)
        | none =>
          if isAsciiLetter c then none
          else
            match parseTemplateGo ng fuel rest1 with
            | none => none
            | some items => some (.lit ['\\', c] :: items)
  | fuel + 1, c :: rest =>
    match parseTemplateGo ng fuel rest with
    | none => none
    | some items => some (.lit [c] :: items)

/-- Parsing of a replacement template against a pattern with ng
groups, modelling the CPython template parser: backslash followed by
digits yields a group reference or an octal character escape, the
ESCAPES table yields control characters, unknown letter escapes and a
trailing backslash are errors, and any other escaped character keeps
both characters.  The scan consumes at least one character per step,
so fuel one beyond the length always suffices. -/
def parseTemplate (ng : Nat) (cs : List Char) : Option (List TItem) :=
  parseTemplateGo ng (cs.length + 1) cs

/-- Expansion of a parsed template against captures: a reference to a
group that did not participate in the match expands to the empty
string (the behavior of the re module since Python 3.5; template
errors are raised at parse time, not here). -/
def expandTemplate (caps : Caps) : List TItem → List Char
  | [] => []
  | .lit cs :: rest => cs ++ expandTemplate caps rest
  | .ref n :: rest => ((caps.getD (n - 1) none).getD []) ++ expandTemplate caps rest

/-- Substitution scan of pattern.sub: walks the subject text left to
right, replacing every non overlapping match by the expanded template
and copying unmatched characters; an empty match emits the expansion
and then copies one character.  Fuel bounds the number of scan steps;
one more step than the text length always suffices, so the none of
the exhausted fuel case is never produced from the reSub entry
point. -/
def reSubGo (f : RFlags) (re : Re) (ng : Nat) (items : List TItem) :
    Nat → List Char → Option (List Char)
  | 0, _ => none
  | fuel + 1, s =>
    match tryMatchAt f re ng s with
    | none =>
      match s with
      | [] => some []
      | c :: rest =>
        match reSubGo f re ng items fuel rest with
        | none => none
        | some out => some (c :: out)
    | some (k, caps) =>
      let repl := expandTemplate caps items
      if k = 0 then
        match s with
        | [] => some repl
        | c :: rest =>
          match reSubGo f re ng items fuel rest with
          | none => none
          | some out => some (repl ++ c :: out)
      else
        match reSubGo f re ng items fuel (s.drop k) with
        | none => none
        | some out => some (repl ++ out)

/-- Full substitution of all matches, modelling pattern.sub. -/
def reSub (f : RFlags) (re : Re) (ng : Nat) (items : List TItem)
    (s : List Char) : Option (List Char) :=
  reSubGo f re ng items (s.length + 1) s

/-! ## The substitution engine of GitHubClient -/

/-- Environment substitution rule, modelling the EnvConfig entries of
config.py: a name (pattern), a value (replacement), the optional
regex toggle and the optional flags string read by github.py. -/
structure EnvConfig where
  name : String
  value : String
  regex : Bool
  flags : String
deriving DecidableEq, Repr

/-- Rewriting of dollar signs in a regex replacement value, modelling
the expression value.replace applied to the dollar and backslash
strings at github.py line 301. -/
def convertDollar (value : List Char) : List Char :=
  pyReplace value ['$'] ['\\']

/-- Application of one regex rule: parse the flags, compile the
pattern, rewrite the replacement, then substitute; any re error
(compile failure or a bad replacement template) leaves the text
unchanged, modelling the except branch that skips the rule. -/
def applyRegexRule (text : List Char) (e : EnvConfig) : List Char :=
  let f := parseFlagsStr e.flags.toList
  match compileRegex e.name.toList with
  | none => text
  | some (re, ng) =>
    match parseTemplate ng (convertDollar e.value.toList) with
    | none => text
    | some items =>
      match reSub f re ng items text with
      | none => text
      | some out => out

/-- Application of one literal rule: replace every occurrence of the
name when it occurs in the text, modelling the else branch of the
rule loop. -/
def applyLiteralRule (text : List Char) (e : EnvConfig) : List Char :=
  if containsSub e.name.toList text then
    pyReplace text e.name.toList e.value.toList
  else text

/-- Application of one rule, dispatching on the regex toggle. -/
def applyEnvConfig (text : List Char) (e : EnvConfig) : List Char :=
  if e.regex then applyRegexRule text e else applyLiteralRule text e

/-- Model of GitHubClient substitute env vars called with a list of
EnvConfig entries, as its signature declares: decode the content as
UTF-8 (returning it unchanged when decoding fails, the binary file
policy), apply the rules in declared order, and re-encode. -/
def substituteEnvVars (content : List Nat) (envVars : List EnvConfig) : List Nat :=
  match utf8Decode content with
  | none => content
  | some text => utf8Encode (envVars.foldl applyEnvConfig text)

/-! ## Fetch paths of GitHubClient download file

Network transport is modelled by explicit response oracles: none
models a raised transport exception, and a response carries its HTTP
status and payload.  raise for status raises exactly on status codes
in the 400 to 599 range. -/

/-- Response of the raw content endpoint. -/
structure RawResp where
  status : Nat
  body : List Nat
deriving DecidableEq, Repr

/-- JSON payload of the contents API: the encoding field and the
content field, each possibly absent. -/
structure ApiJson where
  encoding : Option String
  content : Option String
deriving DecidableEq, Repr

/-- Response of the contents API endpoint; json is none when the body
is not parseable JSON. -/
structure ApiResp where
  status : Nat
  json : Option ApiJson
deriving DecidableEq, Repr

/-- Transport outcomes for both endpoints of one file. -/
structure FetchEnv where
  raw : Option RawResp
  api : Option ApiResp
deriving DecidableEq, Repr

/-- Test modelling requests raise for status: an error is raised
exactly for client and server error status codes. -/
def statusError (s : Nat) : Bool := 400 ≤ s && s ≤ 599

/-- Model of GitHubClient download via raw url: any transport
exception or a 4xx or 5xx status yields none, otherwise the body
bytes are returned. -/
def downloadViaRawUrl (resp : Option RawResp) : Option (List Nat) :=
  match resp with
  | none => none
  | some r => if statusError r.status then none else some r.body

/-- Model of GitHubClient download via api: transport errors, error
statuses, malformed JSON, a missing content field, an encoding other
than base64 or a base64 decode failure all yield none, otherwise the
decoded bytes. -/
def downloadViaApi (resp : Option ApiResp) : Option (List Nat) :=
  match resp with
  | none => none
  | some r =>
    if statusError r.status then none
    else
      match r.json with
      | none => none
      | some j =>
        if j.encoding = some "base64" then
          match j.content with
          | none => none
          | some s => b64decode s.toList
        else none

/-- Error carrying result of the fetch stage: ok bytes, or the
message of a raised exception. -/
abbrev PyResult (α : Type) := Except String α

/-- Identifier string repo colon ref colon path used in messages. -/
def fileId (repo ref path : String) : String :=
  repo ++ ":" ++ ref ++ ":" ++ path

/-- Fetch stage of GitHubClient download file: try the raw endpoint,
fall back to the api endpoint only when a token is configured, and
raise FileNotFoundError naming the identifier when no path yielded
content. -/
def downloadFileCore (token : Option String) (env : FetchEnv)
    (repo ref path : String) : PyResult (List Nat) :=
  match downloadViaRawUrl env.raw with
  | some content => .ok content
  | none =>
    match token with
    | some _ =>
      match downloadViaApi env.api with
      | some content => .ok content
      | none => .error ("File not found: " ++ fileId repo ref path)
    | none => .error ("File not found: " ++ fileId repo ref path)

/-! ## Save step and the full download file pipeline -/

/-- Filesystem model: association list from path to byte content. -/
abbrev FS := List (String × List Nat)

/-- Lookup of a path in the filesystem. -/
def fsGet (fs : FS) (p : String) : Option (List Nat) :=
  match fs.find? (fun q => q.1 = p) with
  | none => none
  | some q => some q.2

/-- Overwriting insert into the filesystem. -/
def fsSet (fs : FS) (p : String) (c : List Nat) : FS :=
  if fs.any (fun q => q.1 = p) then
    fs.map (fun q => if q.1 = p then (p, c) else q)
  else fs ++ [(p, c)]

/-- Model of GitHubClient save file: parent directories are created
(invisible in the flat filesystem model) and the content is written
unconditionally; the source contains no comparison with existing
content and no skip branch, so the path is always reported among the
performed writes. -/
def saveFile (content : List Nat) (outputPath : String) (fs : FS) :
    FS × List String :=
  (fsSet fs outputPath content, [outputPath])

/-- Value observed by sync.py line 206 through getattr for the
attribute last file written with default True: no method of
GitHubClient ever assigns this attribute, so the default is always
observed. -/
def lastFileWritten : Bool := true

/-- Full model of GitHubClient download file when called with a list
of EnvConfig entries as its signature declares: fetch, substitute
when the rule list is nonempty, then save when an output path is
given.  Returns the content, the filesystem and the list of performed
writes. -/
def downloadFile (token : Option String) (env : FetchEnv)
    (repo ref path : String) (outputPath : Option String)
    (envVars : List EnvConfig) (fs : FS) :
    PyResult (List Nat × FS × List String) :=
  match downloadFileCore token env repo ref path with
  | .error e => .error e
  | .ok content =>
    let content := if envVars.isEmpty then content else substituteEnvVars content envVars
    match outputPath with
    | some p =>
      let sv := saveFile content p fs
      .ok (content, sv.1, sv.2)
    | none => .ok (content, fs, [])

/-! ## The sync orchestrator of sync.py -/

/-- Result record of a sync run, modelling the SyncResult class. -/
structure SyncResult where
  successful_files : List String
  failed_files : List (String × String)
  total_bytes : Nat
deriving DecidableEq, Repr

/-- Empty result as built by the SyncResult constructor. -/
def SyncResult.empty : SyncResult := ⟨[], [], 0⟩

/-- Model of SyncResult add success: append the path and accumulate
the byte count. -/
def SyncResult.addSuccess (r : SyncResult) (p : String) (n : Nat) : SyncResult :=
  { r with successful_files := r.successful_files ++ [p],
           total_bytes := r.total_bytes + n }

/-- Model of SyncResult add failure: append the path and error pair. -/
def SyncResult.addFailure (r : SyncResult) (p : String) (e : String) : SyncResult :=
  { r with failed_files := r.failed_files ++ [(p, e)] }

/-- Model of the success count property. -/
def SyncResult.successCount (r : SyncResult) : Nat := r.successful_files.length

/-- Model of the failure count property. -/
def SyncResult.failureCount (r : SyncResult) : Nat := r.failed_files.length

/-- Model of the is success property: failure count equal to zero. -/
def SyncResult.isSuccess (r : SyncResult) : Bool := r.failureCount == 0

/-- Source entry of the configuration, modelling SourceConfig. -/
structure SourceConfig where
  repo : String
  ref : String
  files : List String
deriving DecidableEq, Repr

/-- Configuration with the validated rule list and sources, modelling
the Config mapping of config.py (the envs file path is immaterial
after loading). -/
structure Config where
  envs : List EnvConfig
  sources : List SourceConfig
deriving DecidableEq, Repr

/-- Insert into a Python dict modelled as an ordered association
list: an existing key keeps its position and takes the new value, a
new key is appended. -/
def dictInsert (d : List (String × String)) (k v : String) :
    List (String × String) :=
  if d.any (fun q => q.1 = k) then
    d.map (fun q => if q.1 = k then (k, v) else q)
  else d ++ [(k, v)]

/-- Model of the dict comprehension at sync.py line 137 that maps
each rule name to its value, in insertion order. -/
def buildEnvDict (envs : List EnvConfig) : List (String × String) :=
  envs.foldl (fun d e => dictInsert d e.name e.value) []

/-- Evaluation of GitHubClient substitute env vars when it receives
the name to value dict built in sync.py instead of a list of
EnvConfig entries.  Iterating a dict yields its keys, which are
strings; the first loop iteration subscripts such a string with the
string literal name, which raises TypeError.  Only UnicodeDecodeError
is caught, so: undecodable content is returned unchanged, decodable
content with an empty dict is re-encoded without any substitution,
and decodable content with a nonempty dict raises. -/
def substituteEnvVarsDyn (content : List Nat) (keys : List String) :
    PyResult (List Nat) :=
  match utf8Decode content with
  | none => .ok content
  | some text =>
    match keys with
    | [] => .ok (utf8Encode text)
    | _ :: _ => .error "TypeError: string indices must be integers"

/-- Content stage of download file as invoked from the orchestrator,
which passes the env dict: fetch, then substitute through the dict
when the dict is nonempty (the if env vars guard). -/
def fetchAndSubstituteDyn (token : Option String) (env : FetchEnv)
    (repo ref path : String) (envKeys : List String) : PyResult (List Nat) :=
  match downloadFileCore token env repo ref path with
  | .error e => .error e
  | .ok content =>
    if envKeys.isEmpty then .ok content
    else substituteEnvVarsDyn content envKeys

/-- Destination path of one file, modelling the branch of sync.py
lines 191 to 198: preserved structure nests under the repo with the
slash replaced by an underscore, flattened output uses the base name
under the output directory. -/
def outPathFor (outputDir : String) (preserve : Bool) (repo filePath : String) :
    String :=
  if preserve then
    outputDir ++ "/" ++ ⟨pyReplace repo.toList ['/'] ['_']⟩ ++ "/" ++ filePath
  else
    outputDir ++ "/" ++ ⟨baseName filePath.toList⟩

/-- One iteration of the file loop of sync source: dry run records a
synthetic success of size zero; otherwise the download outcome is
recorded as a success with the byte length of the returned content,
or as a failure carrying the identifier and the error description,
and processing continues. -/
def syncStep (token : Option String) (oracle : String → FetchEnv)
    (envKeys : List String) (outputDir : String) (dryRun preserve : Bool)
    (repo ref : String) (acc : SyncResult × FS) (filePath : String) :
    SyncResult × FS :=
  let fid := fileId repo ref filePath
  if dryRun then (acc.1.addSuccess fid 0, acc.2)
  else
    let outPath := outPathFor outputDir preserve repo filePath
    match fetchAndSubstituteDyn token (oracle fid) repo ref filePath envKeys with
    | .ok content =>
      (acc.1.addSuccess fid content.length, (saveFile content outPath acc.2).1)
    | .error e => (acc.1.addFailure fid e, acc.2)

/-- Model of RepoFileSync sync source: fold the file loop over the
declared files of one source. -/
def syncSource (token : Option String) (oracle : String → FetchEnv)
    (envKeys : List String) (outputDir : String) (dryRun preserve : Bool)
    (source : SourceConfig) (acc : SyncResult × FS) : SyncResult × FS :=
  source.files.foldl
    (syncStep token oracle envKeys outputDir dryRun preserve source.repo source.ref)
    acc

/-- Model of RepoFileSync sync: build the env dict, then process each
source in order, merging per source results in processing order
(extending the running lists is the same as threading one
accumulator). -/
def syncRun (token : Option String) (oracle : String → FetchEnv)
    (config : Config) (outputDir : String) (dryRun preserve : Bool)
    (fs0 : FS) : SyncResult × FS :=
  let envKeys := (buildEnvDict config.envs).map Prod.fst
  config.sources.foldl
    (fun acc s => syncSource token oracle envKeys outputDir dryRun preserve s acc)
    (SyncResult.empty, fs0)

/-! ## Abstract operation sequences over SyncResult -/

/-- One recorded outcome operation on a SyncResult. -/
inductive SyncOp where
  | succ (path : String) (size : Nat)
  | fail (path : String) (err : String)
deriving DecidableEq, Repr

/-- Application of one operation, dispatching to add success or add
failure. -/
def applyOp (r : SyncResult) : SyncOp → SyncResult
  | .succ p n => r.addSuccess p n
  | .fail p e => r.addFailure p e

/-- Replay of an operation sequence from the empty result. -/
def runOps (ops : List SyncOp) : SyncResult :=
  ops.foldl applyOp SyncResult.empty

/-- Byte contribution of one operation. -/
def opBytes : SyncOp → Nat
  | .succ _ n => n
  | .fail _ _ => 0

/-- Success record of one operation. -/
def opSucc : SyncOp → Option String
  | .succ p _ => some p
  | .fail _ _ => none

/-- Failure record of one operation. -/
def opFail : SyncOp → Option (String × String)
  | .succ _ _ => none
  | .fail p e => some (p, e)

/-! ## Per file outcome projections of the file loop -/

/-- Failure entry that the file loop records for one file, none when
the file succeeds. -/
def fileFailEntry (token : Option String) (oracle : String → FetchEnv)
    (envKeys : List String) (repo ref : String) (p : String) :
    Option (String × String) :=
  match fetchAndSubstituteDyn token (oracle (fileId repo ref p)) repo ref p envKeys with
  | .ok _ => none
  | .error e => some (fileId repo ref p, e)

/-- Success entry that the file loop records for one file, none when
the file fails. -/
def fileSuccEntry (token : Option String) (oracle : String → FetchEnv)
    (envKeys : List String) (repo ref : String) (p : String) : Option String :=
  match fetchAndSubstituteDyn token (oracle (fileId repo ref p)) repo ref p envKeys with
  | .ok _ => some (fileId repo ref p)
  | .error _ => none

/-- Byte count that the file loop records for one file. -/
def fileBytes (token : Option String) (oracle : String → FetchEnv)
    (envKeys : List String) (repo ref : String) (p : String) : Nat :=
  match fetchAndSubstituteDyn token (oracle (fileId repo ref p)) repo ref p envKeys with
  | .ok c => c.length
  | .error _ => 0

/-! ## Concrete scenarios used by the claim theorems -/

/-- Byte content used in the identical write scenario. -/
def c1Content : List Nat := utf8Encode "# Existing Content".toList

/-- Filesystem already holding the identical content at the
destination path. -/
def c1Fs : FS := [("out/test.txt", c1Content)]

/-- Fetch oracle returning exactly the existing content. -/
def c1Env : FetchEnv := ⟨some ⟨200, c1Content⟩, none⟩

/-- Configuration of the end to end scenario: one rule named TEST VAR
with value test value, one source with one file. -/
def c2Config : Config :=
  ⟨[⟨"TEST_VAR", "test_value", false, ""⟩],
   [⟨"test/repo", "main", ["test.txt"]⟩]⟩

/-- Fetch oracle of the end to end scenario: the raw endpoint serves
the body Content with TEST VAR. -/
def c2Oracle : String → FetchEnv :=
  fun _ => ⟨some ⟨200, utf8Encode "Content with TEST_VAR".toList⟩, none⟩

/-- The single rule of the end to end scenario. -/
def c2Rule : EnvConfig := ⟨"TEST_VAR", "test_value", false, ""⟩

/-- Fetch environment in which the raw endpoint answers with status
201 and body byte 88 while the api endpoint would decode to byte 89. -/
def c3Env : FetchEnv :=
  ⟨some ⟨201, [88]⟩, some ⟨200, some ⟨some "base64", some "WQ=="⟩⟩⟩

/-- Fetch oracle of the failure isolation scenario: the file b.txt
fails on both paths, every other file is served with two bytes. -/
def c8Oracle : String → FetchEnv :=
  fun fid =>
    if fid = "test/repo:main:b.txt" then ⟨some ⟨404, []⟩, some ⟨404, none⟩⟩
    else ⟨some ⟨200, [65, 66]⟩, none⟩

/-! ## Helper lemmas -/

theorem no_dollar_pyReplaceGo :
    ∀ (fuel : Nat) (s : List Char), s.length ≤ fuel →
      '$' ∉ pyReplaceGo ['$'] ['\\'] fuel s := by
  intro fuel
  induction fuel with
  | zero =>
    intro s hs
    have hnil : s = [] := List.eq_nil_of_length_eq_zero (Nat.le_zero.mp hs)
    subst hnil
    simp [pyReplaceGo]
  | succ n ih =>
    intro s hs
    match s with
    | [] => simp [pyReplaceGo]
    | c :: rest =>
      have hrest : rest.length ≤ n := by
        simpa using Nat.le_of_succ_le_succ (by simpa using hs)
      rw [pyReplaceGo]
      by_cases hc : c = '$'
      · subst hc
        rw [if_pos ⟨by simp, by simp [strStartsWith]⟩]
        intro hmem
        rcases List.mem_append.mp hmem with h1 | h2
        · simp at h1
        · have hdrop : ((('$' : Char) :: rest).drop (['$'] : List Char).length) = rest := by
            simp
          rw [hdrop] at h2
          exact ih rest hrest h2
      · rw [if_neg]
        · intro hmem
          rcases List.mem_cons.mp hmem with h1 | h2
          · exact hc h1.symm
          · exact ih rest hrest h2
        · intro hcond
          have hsw := hcond.2
          simp only [strStartsWith, Bool.and_eq_true, decide_eq_true_eq] at hsw
          exact hc hsw.1.symm

theorem runOps_fold (ops : List SyncOp) :
    ∀ (r : SyncResult),
      ((ops.foldl applyOp r).total_bytes = r.total_bytes + (ops.map opBytes).sum)
      ∧ ((ops.foldl applyOp r).successful_files
           = r.successful_files ++ ops.filterMap opSucc)
      ∧ ((ops.foldl applyOp r).failed_files
           = r.failed_files ++ ops.filterMap opFail) := by
  induction ops with
  | nil => intro r; simp
  | cons op rest ih =>
    intro r
    cases op with
    | succ p nn =>
      have h := ih (r.addSuccess p nn)
      simp only [List.foldl_cons, applyOp] at *
      refine ⟨?_, ?_, ?_⟩
      · rw [h.1]; simp [SyncResult.addSuccess, opBytes]; omega
      · rw [h.2.1]; simp [SyncResult.addSuccess, opSucc]
      · rw [h.2.2]; simp [SyncResult.addSuccess, opFail]
    | fail p e =>
      have h := ih (r.addFailure p e)
      simp only [List.foldl_cons, applyOp] at *
      refine ⟨?_, ?_, ?_⟩
      · rw [h.1]; simp [SyncResult.addFailure, opBytes]
      · rw [h.2.1]; simp [SyncResult.addFailure, opSucc]
      · rw [h.2.2]; simp [SyncResult.addFailure, opFail]

theorem syncStep_fold (token : Option String) (oracle : String → FetchEnv)
    (envKeys : List String) (outputDir : String) (preserve : Bool)
    (repo ref : String) :
    ∀ (files : List String) (r : SyncResult) (fs : FS),
      (((files.foldl
          (syncStep token oracle envKeys outputDir false preserve repo ref)
          (r, fs)).1.failed_files)
        = r.failed_files
          ++ files.filterMap (fileFailEntry token oracle envKeys repo ref))
      ∧ (((files.foldl
          (syncStep token oracle envKeys outputDir false preserve repo ref)
          (r, fs)).1.successful_files)
        = r.successful_files
          ++ files.filterMap (fileSuccEntry token oracle envKeys repo ref))
      ∧ (((files.foldl
          (syncStep token oracle envKeys outputDir false preserve repo ref)
          (r, fs)).1.total_bytes)
        = r.total_bytes
          + (files.map (fileBytes token oracle envKeys repo ref)).sum) := by
  intro files
  induction files with
  | nil => intro r fs; simp
  | cons p rest ih =>
    intro r fs
    simp only [List.foldl_cons, List.filterMap_cons, List.map_cons]
    cases hp : fetchAndSubstituteDyn token (oracle (fileId repo ref p)) repo ref p envKeys with
    | ok c =>
      have hstep :
          syncStep token oracle envKeys outputDir false preserve repo ref (r, fs) p
            = (r.addSuccess (fileId repo ref p) c.length,
               (saveFile c (outPathFor outputDir preserve repo p) fs).1) := by
        simp [syncStep, hp]
      rw [hstep]
      have h := ih (r.addSuccess (fileId repo ref p) c.length)
        ((saveFile c (outPathFor outputDir preserve repo p) fs).1)
      refine ⟨?_, ?_, ?_⟩
      · rw [h.1]; simp [SyncResult.addSuccess, fileFailEntry, hp]
      · rw [h.2.1]; simp [SyncResult.addSuccess, fileSuccEntry, hp]
      · rw [h.2.2]; simp [SyncResult.addSuccess, fileBytes, hp]; omega
    | error e =>
      have hstep :
          syncStep token oracle envKeys outputDir false preserve repo ref (r, fs) p
            = (r.addFailure (fileId repo ref p) e, fs) := by
        simp [syncStep, hp]
      rw [hstep]
      have h := ih (r.addFailure (fileId repo ref p) e) fs
      refine ⟨?_, ?_, ?_⟩
      · rw [h.1]; simp [SyncResult.addFailure, fileFailEntry, hp]
      · rw [h.2.1]; simp [SyncResult.addFailure, fileSuccEntry, hp]
      · rw [h.2.2]; simp [SyncResult.addFailure, fileBytes, hp]

/-! ## Claim theorems -/

/-- C1: the claim says the write step skips the write and reports
written false when the destination already holds identical bytes.  In
the source, save file writes unconditionally (no content comparison
exists) and no method ever assigns the last file written attribute,
so the getattr default True is always observed: downloading content
identical to the existing file still performs the write and the
reported flag is true. -/
theorem c1_identical_content_still_written :
    downloadFile none c1Env "owner/repo" "main" "test.txt"
        (some "out/test.txt") [] c1Fs
      = .ok (c1Content, c1Fs, ["out/test.txt"])
    ∧ lastFileWritten = true := by
  constructor
  · rfl
  · rfl

/-- C2: on the end to end scenario the orchestrator records one
failure and no success, because sync.py passes the name to value dict
into the substitution routine, whose loop subscripts the dict keys
(strings) with the name field and raises TypeError; additionally,
even the substitution routine called as its signature declares yields
the body Content with test value whose byte length is 23, not 22. -/
theorem c2_sync_end_to_end :
    (syncRun none c2Oracle c2Config "output" false false []).1.failed_files
      = [("test/repo:main:test.txt", "TypeError: string indices must be integers")]
    ∧ (syncRun none c2Oracle c2Config "output" false false []).1.successful_files = []
    ∧ substituteEnvVars (utf8Encode "Content with TEST_VAR".toList) [c2Rule]
        = utf8Encode "Content with test_value".toList
    ∧ (utf8Encode "Content with test_value".toList).length = 23 := by
  refine ⟨?_, ?_, ?_, ?_⟩ <;> rfl

/-- C3 counterexample: the claim calls every non 200 status on the
raw endpoint a failure that triggers the api fallback, but raise for
status raises only for statuses 400 to 599.  With raw status 201 the
fetch returns the raw body (byte 88) and never consults the api,
whose successfully decoded result would be byte 89. -/
theorem c3_counterexample_status_201 :
    c3Env.raw = some ⟨201, [88]⟩
    ∧ (201 : Nat) ≠ 200
    ∧ downloadViaApi c3Env.api = some [89]
    ∧ downloadFileCore (some "tok") c3Env "owner/repo" "main" "file.txt"
        = .ok [88]
    ∧ ([88] : List Nat) ≠ [89] := by
  refine ⟨rfl, by decide, by decide, rfl, by decide⟩

/-- C3 amended: with failure of the raw attempt meaning a transport
error or a status in the 400 to 599 range, the fetch control flow
holds: on raw failure with a token the api result is returned when it
decodes, with no token the api oracle is never consulted (the result
does not depend on it), and when both paths fail the fetch signals
file not found carrying the repo colon ref colon path identifier. -/
theorem c3_fallback_control_flow (token : String) (env : FetchEnv)
    (repo ref path : String) :
    (∀ c, downloadViaRawUrl env.raw = none → downloadViaApi env.api = some c →
       downloadFileCore (some token) env repo ref path = .ok c)
    ∧ (∀ raw api1 api2,
        downloadFileCore none ⟨raw, api1⟩ repo ref path
          = downloadFileCore none ⟨raw, api2⟩ repo ref path)
    ∧ (downloadViaRawUrl env.raw = none → downloadViaApi env.api = none →
        downloadFileCore (some token) env repo ref path
          = .error ("File not found: " ++ fileId repo ref path))
    ∧ (downloadViaRawUrl env.raw = none →
        downloadFileCore none env repo ref path
          = .error ("File not found: " ++ fileId repo ref path)) := by
  refine ⟨?_, ?_, ?_, ?_⟩
  · intro c hraw hapi
    simp [downloadFileCore, hraw, hapi]
  · intro raw api1 api2
    cases h : downloadViaRawUrl raw <;> simp [downloadFileCore, h]
  · intro hraw hapi
    simp [downloadFileCore, hraw, hapi]
  · intro hraw
    simp [downloadFileCore, hraw]

/-- Witness for the C3 theorem at a concrete input: raw fails with
404, the token is configured, the api decodes to byte 89, and the
fetch returns exactly that result. -/
theorem c3_fallback_control_flow_witness :
    downloadFileCore (some "tok")
        ⟨some ⟨404, [88]⟩, some ⟨200, some ⟨some "base64", some "WQ=="⟩⟩⟩
        "owner/repo" "main" "file.txt"
      = .ok [89] :=
  (c3_fallback_control_flow "tok"
      ⟨some ⟨404, [88]⟩, some ⟨200, some ⟨some "base64", some "WQ=="⟩⟩⟩
      "owner/repo" "main" "file.txt").1 [89] (by decide) (by decide)

/-- C4: content that does not decode as UTF-8 is returned byte
identical by the substitution engine, whatever the rule list says. -/
theorem c4_binary_content_unchanged (c : List Nat) (r : List EnvConfig)
    (h : utf8Decode c = none) : substituteEnvVars c r = c := by
  simp [substituteEnvVars, h]

/-- Witness for the C4 theorem: the PNG signature bytes do not decode
and pass through a nonempty rule list unchanged. -/
theorem c4_binary_content_unchanged_witness :
    utf8Decode [0x89, 0x50, 0x4E, 0x47, 0x0D, 0x0A, 0x1A, 0x0A] = none
    ∧ substituteEnvVars [0x89, 0x50, 0x4E, 0x47, 0x0D, 0x0A, 0x1A, 0x0A]
        [⟨"test", "replacement", false, ""⟩]
      = [0x89, 0x50, 0x4E, 0x47, 0x0D, 0x0A, 0x1A, 0x0A] :=
  ⟨by decide, c4_binary_content_unchanged _ _ (by decide)⟩

/-- C5: a regex rule whose pattern fails to compile is skipped
entirely: substitution never raises in the model, and the run over a
rule list containing the invalid rule equals the run with the invalid
rule deleted, so all other rules still apply in declared order. -/
theorem c5_invalid_regex_rule_skipped (content : List Nat)
    (pre post : List EnvConfig) (bad : EnvConfig)
    (hreg : bad.regex = true)
    (hcomp : compileRegex bad.name.toList = none) :
    substituteEnvVars content (pre ++ bad :: post)
      = substituteEnvVars content (pre ++ post) := by
  have hcomp2 : compileRegex bad.name.data = none := hcomp
  have hbad : ∀ t, applyEnvConfig t bad = t := by
    intro t
    simp [applyEnvConfig, hreg, applyRegexRule, hcomp2]
  unfold substituteEnvVars
  cases utf8Decode content with
  | none => rfl
  | some text =>
    simp only [List.foldl_append, List.foldl_cons, hbad]

/-- Witness for the C5 theorem: the unterminated class pattern does
not compile, the rule carrying it is skipped between two literal
rules, and the surrounding rules still fire. -/
theorem c5_invalid_regex_rule_skipped_witness :
    substituteEnvVars (utf8Encode "hello WORLD".toList)
        [⟨"WORLD", "earth", false, ""⟩, ⟨"[invalid", "x", true, ""⟩,
         ⟨"hello", "bye", false, ""⟩]
      = substituteEnvVars (utf8Encode "hello WORLD".toList)
        [⟨"WORLD", "earth", false, ""⟩, ⟨"hello", "bye", false, ""⟩]
    ∧ substituteEnvVars (utf8Encode "hello WORLD".toList)
        [⟨"WORLD", "earth", false, ""⟩, ⟨"hello", "bye", false, ""⟩]
      = utf8Encode "bye earth".toList :=
  ⟨c5_invalid_regex_rule_skipped _
      [⟨"WORLD", "earth", false, ""⟩] [⟨"hello", "bye", false, ""⟩]
      ⟨"[invalid", "x", true, ""⟩ rfl (by decide),
   by decide⟩

/-- C6: the version pattern with three groups and the dollar style
replacement rewrites both occurrences, the dollar references having
been converted to backslash references before substitution. -/
theorem c6_capture_group_rewriting :
    substituteEnvVars (utf8Encode "v1.2.3 and v3.1.4".toList)
        [⟨"v(\\d+)\\.(\\d+)\\.(\\d+)", "version-$1.$2.$3", true, ""⟩]
      = utf8Encode "version-1.2.3 and version-3.1.4".toList := by
  rfl

/-- C7: literal rule application composes sequentially and is order
sensitive: on abc the order A then B yields xc while B then A yields
ay. -/
theorem c7_literal_order_sensitivity :
    substituteEnvVars (utf8Encode "abc".toList)
        [⟨"ab", "x", false, ""⟩, ⟨"bc", "y", false, ""⟩]
      = utf8Encode "xc".toList
    ∧ substituteEnvVars (utf8Encode "abc".toList)
        [⟨"bc", "y", false, ""⟩, ⟨"ab", "x", false, ""⟩]
      = utf8Encode "ay".toList := by
  exact ⟨rfl, rfl⟩

/-- C8: inserting a file whose processing fails into a batch adds
exactly one failure entry carrying its identifier and error
description, the remaining files before and after it are still
processed in declared order, and their recorded outcomes (successes,
failures, byte total) equal those of the runs without the failing
file. -/
theorem c8_failure_isolation (token : Option String) (oracle : String → FetchEnv)
    (envKeys : List String) (outputDir : String) (preserve : Bool)
    (repo ref : String) (pre post : List String) (bad : String) (e : String)
    (hbad : fetchAndSubstituteDyn token (oracle (fileId repo ref bad)) repo ref bad envKeys
              = .error e) (fs0 : FS) :
    ((syncSource token oracle envKeys outputDir false preserve
        ⟨repo, ref, pre ++ bad :: post⟩ (SyncResult.empty, fs0)).1.failed_files
      = (syncSource token oracle envKeys outputDir false preserve
          ⟨repo, ref, pre⟩ (SyncResult.empty, fs0)).1.failed_files
        ++ (fileId repo ref bad, e)
        :: (syncSource token oracle envKeys outputDir false preserve
            ⟨repo, ref, post⟩ (SyncResult.empty, fs0)).1.failed_files)
    ∧ ((syncSource token oracle envKeys outputDir false preserve
        ⟨repo, ref, pre ++ bad :: post⟩ (SyncResult.empty, fs0)).1.successful_files
      = (syncSource token oracle envKeys outputDir false preserve
          ⟨repo, ref, pre⟩ (SyncResult.empty, fs0)).1.successful_files
        ++ (syncSource token oracle envKeys outputDir false preserve
            ⟨repo, ref, post⟩ (SyncResult.empty, fs0)).1.successful_files)
    ∧ ((syncSource token oracle envKeys outputDir false preserve
        ⟨repo, ref, pre ++ bad :: post⟩ (SyncResult.empty, fs0)).1.total_bytes
      = (syncSource token oracle envKeys outputDir false preserve
          ⟨repo, ref, pre⟩ (SyncResult.empty, fs0)).1.total_bytes
        + (syncSource token oracle envKeys outputDir false preserve
            ⟨repo, ref, post⟩ (SyncResult.empty, fs0)).1.total_bytes) := by
  have hfold := syncStep_fold token oracle envKeys outputDir preserve repo ref
  have hfail : fileFailEntry token oracle envKeys repo ref bad
      = some (fileId repo ref bad, e) := by
    simp [fileFailEntry, hbad]
  have hsucc : fileSuccEntry token oracle envKeys repo ref bad = none := by
    simp [fileSuccEntry, hbad]
  have hbytes : fileBytes token oracle envKeys repo ref bad = 0 := by
    simp [fileBytes, hbad]
  simp only [syncSource]
  refine ⟨?_, ?_, ?_⟩
  · rw [(hfold (pre ++ bad :: post) SyncResult.empty fs0).1,
        (hfold pre SyncResult.empty fs0).1,
        (hfold post SyncResult.empty fs0).1]
    simp [List.filterMap_append, hfail, SyncResult.empty]
  · rw [(hfold (pre ++ bad :: post) SyncResult.empty fs0).2.1,
        (hfold pre SyncResult.empty fs0).2.1,
        (hfold post SyncResult.empty fs0).2.1]
    simp [List.filterMap_append, hsucc, SyncResult.empty]
  · rw [(hfold (pre ++ bad :: post) SyncResult.empty fs0).2.2,
        (hfold pre SyncResult.empty fs0).2.2,
        (hfold post SyncResult.empty fs0).2.2]
    simp [List.map_append, hbytes, SyncResult.empty]

/-- Witness for the C8 theorem: in a three file batch whose middle
file gets 404 on both fetch paths, the failure list holds exactly
that entry and the other two files succeed around it. -/
theorem c8_failure_isolation_witness :
    ((syncSource (some "tok") c8Oracle [] "out" false false
        ⟨"test/repo", "main", ["a.txt"] ++ "b.txt" :: ["c.txt"]⟩
        (SyncResult.empty, [])).1.failed_files
      = (syncSource (some "tok") c8Oracle [] "out" false false
          ⟨"test/repo", "main", ["a.txt"]⟩ (SyncResult.empty, [])).1.failed_files
        ++ (fileId "test/repo" "main" "b.txt", "File not found: test/repo:main:b.txt")
        :: (syncSource (some "tok") c8Oracle [] "out" false false
            ⟨"test/repo", "main", ["c.txt"]⟩ (SyncResult.empty, [])).1.failed_files)
    ∧ ((syncSource (some "tok") c8Oracle [] "out" false false
        ⟨"test/repo", "main", ["a.txt"] ++ "b.txt" :: ["c.txt"]⟩
        (SyncResult.empty, [])).1.successful_files
      = (syncSource (some "tok") c8Oracle [] "out" false false
          ⟨"test/repo", "main", ["a.txt"]⟩ (SyncResult.empty, [])).1.successful_files
        ++ (syncSource (some "tok") c8Oracle [] "out" false false
            ⟨"test/repo", "main", ["c.txt"]⟩ (SyncResult.empty, [])).1.successful_files)
    ∧ ((syncSource (some "tok") c8Oracle [] "out" false false
        ⟨"test/repo", "main", ["a.txt"] ++ "b.txt" :: ["c.txt"]⟩
        (SyncResult.empty, [])).1.total_bytes
      = (syncSource (some "tok") c8Oracle [] "out" false false
          ⟨"test/repo", "main", ["a.txt"]⟩ (SyncResult.empty, [])).1.total_bytes
        + (syncSource (some "tok") c8Oracle [] "out" false false
            ⟨"test/repo", "main", ["c.txt"]⟩ (SyncResult.empty, [])).1.total_bytes) :=
  c8_failure_isolation (some "tok") c8Oracle [] "out" false
    "test/repo" "main" ["a.txt"] ["c.txt"] "b.txt"
    "File not found: test/repo:main:b.txt" rfl []

/-- C9: replaying any sequence of add success and add failure
operations from the empty SyncResult, the byte total is the sum of
the recorded success sizes (failures contribute nothing), both
outcome lists hold their entries in append order, and is success
holds exactly when the failure list is empty. -/
theorem c9_sync_result_invariant (ops : List SyncOp) :
    (runOps ops).total_bytes = (ops.map opBytes).sum
    ∧ (runOps ops).successful_files = ops.filterMap opSucc
    ∧ (runOps ops).failed_files = ops.filterMap opFail
    ∧ ((runOps ops).isSuccess = true ↔ (runOps ops).failed_files = []) := by
  have h := runOps_fold ops SyncResult.empty
  refine ⟨?_, ?_, ?_, ?_⟩
  · simpa [runOps, SyncResult.empty] using h.1
  · simpa [runOps, SyncResult.empty] using h.2.1
  · simpa [runOps, SyncResult.empty] using h.2.2
  · simp [SyncResult.isSuccess, SyncResult.failureCount, List.length_eq_zero]

/-- C10 counterexample: the rule with pattern a and replacement
value dollar 0 4 4 rewrites the dollar to a backslash, producing the
octal escape backslash 0 4 4, which denotes the dollar character
itself: applied to the text a, the output is exactly one dollar, so
the replacement of a regex rule can contribute a literal dollar. -/
theorem c10_counterexample_octal_escape :
    applyEnvConfig "a".toList ⟨"a", "$044", true, ""⟩ = ['$']
    ∧ '$' ∈ applyEnvConfig "a".toList ⟨"a", "$044", true, ""⟩ := by
  exact ⟨rfl, by decide⟩

/-- C10 amended: every dollar in the replacement value is rewritten
to a backslash, so no dollar survives the rewrite verbatim; the
resulting escape acts as a backreference or an escape sequence
(possibly denoting the dollar itself, as the octal escape does), or
makes the substitution fail, in which case the regex error handler
skips the rule and the text is unchanged. -/
theorem c10_dollar_rewrite (e : EnvConfig) (text : List Char)
    (hreg : e.regex = true) :
    (∀ value : List Char, '$' ∉ convertDollar value)
    ∧ (∀ re ng, compileRegex e.name.toList = some (re, ng) →
        parseTemplate ng (convertDollar e.value.toList) = none →
        applyEnvConfig text e = text) := by
  constructor
  · intro value
    unfold convertDollar pyReplace
    rw [if_neg (by simp)]
    exact no_dollar_pyReplaceGo value.length value le_rfl
  · intro re ng hcompile htmpl
    have hc2 : compileRegex e.name.data = some (re, ng) := hcompile
    have ht2 : parseTemplate ng (convertDollar e.value.data) = none := htmpl
    simp [applyEnvConfig, hreg, applyRegexRule, hc2, ht2]

/-- Witness for the C10 theorem: the rewritten replacement of the
octal example holds no dollar, and a rule whose rewritten replacement
fails to parse as a template (backslash x is a bad escape) leaves the
text unchanged. -/
theorem c10_dollar_rewrite_witness :
    ('$' ∉ convertDollar "$044".toList)
    ∧ applyEnvConfig "abc".toList ⟨"a", "$x", true, ""⟩ = "abc".toList :=
  ⟨(c10_dollar_rewrite ⟨"a", "$x", true, ""⟩ "abc".toList rfl).1 "$044".toList,
   (c10_dollar_rewrite ⟨"a", "$x", true, ""⟩ "abc".toList rfl).2
     (Re.seq (Re.tok (RTok.lit 'a')) Re.eps) 0 (by decide) (by decide)⟩
